import Mathlib

/-!
Shallow embedding of the `analyzer` package of sdileep/http-log-parser.

The Go code streams a log file line by line, matches each line against a
configured regular expression, folds the matched records into two frequency
tables (client address and resolved URL), and reduces each table to a ranked
top-N list.  External library behaviour is abstracted as parameters:

* the compiled regular expression becomes a function
  `String → Option Captures` (`FindStringSubmatch`: `none` models a nil
  result, `some` carries the ten capture groups of the default pattern);
* `os.Open` becomes `openFile : String → Option (List String)`, yielding the
  scanned lines on success;
* `time.Parse` becomes `timeParse : String → τ` for an arbitrary time type
  `τ` (the code discards the parse error, so the parse is total);
* a Go `map[string]int` becomes an association list with pairwise-distinct
  keys kept in first-insertion order; because Go randomises map iteration
  order, the order in which `topMost` receives the entries is modelled as an
  explicit permutation parameter of the canonical table (`ValidOrders`);
* a panic (the out-of-bounds index in `topMost`) is modelled by `none` /
  `AnalyzeOutcome.fatal`.
-/

namespace HttpLog

/-- Error string constant `ErrConfigIsRequired` from analyzer.go. -/
def ErrConfigIsRequired : String := "config is required"

/-- Error string constant `ErrLineRegexIsRequired` from analyzer.go. -/
def ErrLineRegexIsRequired : String := "line regex is required"

/-- Error string constant `ErrOpeningFile` from analyzer.go. -/
def ErrOpeningFile : String := "error opening file"

/-- The ten capture groups delivered by `lineRegex.FindStringSubmatch` for the
default pattern: 1) IP, 2) date, 3) method, 4) URL, 5) protocol,
6) URL-with-no-protocol fallback, 7) status code, 8) bytes, 9) referrer,
10) user agent.  A group that did not participate in the match is the empty
string, exactly as in Go. -/
structure Captures where
  g1 : String
  g2 : String
  g3 : String
  g4 : String
  g5 : String
  g6 : String
  g7 : String
  g8 : String
  g9 : String
  g10 : String
deriving DecidableEq

/-- Go `strconv.Atoi`: an optional sign followed by at least one ASCII digit,
with the 64-bit range check (out of range is an error, which the caller turns
into `0`). -/
def goAtoi (s : String) : Option Int :=
  let cs := s.toList
  let signed : Bool × List Char :=
    match cs with
    | '-' :: rest => (true, rest)
    | '+' :: rest => (false, rest)
    | _ => (false, cs)
  let ds := signed.2
  if ds = [] then none
  else if ds.all Char.isDigit then
    let n : Nat := ds.foldl (fun acc c => acc * 10 + (c.toNat - 48)) 0
    let v : Int := if signed.1 then -(n : Int) else (n : Int)
    if v < -(2 ^ 63 : Int) ∨ (2 ^ 63 - 1 : Int) < v then none else some v
  else none

/-- `Line`: the decoded form of one log line (struct `Line` in analyzer.go),
with the time field at an abstract type `τ`. -/
structure Line (τ : Type) where
  RemoteHost : String
  Time : τ
  Request : String
  Status : Int
  Bytes : Int
  Referer : String
  UserAgent : String
  URL : String
deriving DecidableEq

/-- Building one `Line` from the capture groups, as in the body of the scan
loop of `readLogLines`: `Request` joins groups 3,4,5 with spaces, status and
bytes default to `0` on a failed `Atoi`, and the resolved URL falls back to
group 6 when group 4 is empty and group 6 is not. -/
def decodeLine {τ : Type} (timeParse : String → τ) (caps : Captures) : Line τ :=
  { RemoteHost := caps.g1
    Time := timeParse caps.g2
    Request := caps.g3 ++ " " ++ caps.g4 ++ " " ++ caps.g5
    Status := (goAtoi caps.g7).getD 0
    Bytes := (goAtoi caps.g8).getD 0
    Referer := caps.g9
    UserAgent := caps.g10
    URL := if caps.g4 = "" ∧ caps.g6 ≠ "" then caps.g6 else caps.g4 }

/-- `readLogLines`: scan the lines in order, skip every line on which
`FindStringSubmatch` returns no result, and emit a decoded `Line` for each
match. -/
def readLogLines {τ : Type} (regex : String → Option Captures)
    (timeParse : String → τ) (lines : List String) : List (Line τ) :=
  lines.filterMap (fun l => (regex l).map (decodeLine timeParse))

/-- One step of the consolidation loop of `Analyze` on one frequency table:
`count, exists := m[k]; if !exists { m[k] = 0 }; m[k] = count + 1`.  The Go
map is an association list with keys in first-insertion order. -/
def bump (m : List (String × Nat)) (k : String) : List (String × Nat) :=
  match m.find? (fun p => decide (p.1 = k)) with
  | some p => m.map (fun q => if q.1 = k then (q.1, p.2 + 1) else q)
  | none => m ++ [(k, 1)]

/-- The streaming pass of `Analyze`: fold every decoded record into the
`uniqueIps` table (keyed by `RemoteHost`) and the `urlHits` table (keyed by
`URL`). -/
def consolidate {τ : Type} (recs : List (Line τ)) :
    List (String × Nat) × List (String × Nat) :=
  recs.foldl (fun acc l => (bump acc.1 l.RemoteHost, bump acc.2 l.URL)) ([], [])

/-- The sort in `topMost`: `sort.Slice` with `stats[i].count > stats[j].count`,
i.e. the entries rearranged into descending count order.  A stable merge sort
over an arbitrary iteration order of the table realises exactly the
descending-by-count arrangements. -/
def statSort (stats : List (String × Nat)) : List (String × Nat) :=
  stats.mergeSort (fun a b => decide (b.2 ≤ a.2))

/-- `topMost`: sort the entries by count descending, then index
`stats[0] .. stats[top-1]`.  Indexing past the end of the slice is a panic,
modelled as `none`; a `top` of zero or less yields the empty list. -/
def topMost (metrics : List (String × Nat)) (top : Int) : Option (List String) :=
  let stats := statSort metrics
  if (stats.length : Int) < top then none
  else some ((stats.take top.toNat).map Prod.fst)

/-- `LogAnalytics`: the result object of one analysis run. -/
structure LogAnalytics where
  UniqueIPCount : Nat
  MostActiveIPs : List String
  MostVisitedURLs : List String
deriving DecidableEq

/-- The private `logAnalyzer` struct: the compiled pattern (as a matching
function) and the two requested top-N counts (Go `int`). -/
structure logAnalyzer where
  lineRegex : String → Option Captures
  mostActiveIPsCount : Int
  mostVisitedURLsCount : Int

/-- The observable outcome of one call to `Analyze`: a returned error, a
panic (the out-of-bounds index of `topMost`), or a result object. -/
inductive AnalyzeOutcome where
  | fatal : AnalyzeOutcome
  | err : String → AnalyzeOutcome
  | ok : LogAnalytics → AnalyzeOutcome
deriving DecidableEq

/-- The post-open part of `Analyze`: decode the lines, build the two
frequency tables, rank both.  `ipOrder` and `urlOrder` are the orders in
which the two Go maps happen to be iterated inside `topMost`; `UniqueIPCount`
is `len(uniqueIps)`. -/
def AnalyzeCore {τ : Type} (timeParse : String → τ) (la : logAnalyzer)
    (lines : List String) (ipOrder urlOrder : List (String × Nat)) :
    Option LogAnalytics :=
  let tables := consolidate (readLogLines la.lineRegex timeParse lines)
  match topMost ipOrder la.mostActiveIPsCount,
      topMost urlOrder la.mostVisitedURLsCount with
  | some ips, some urls =>
    some { UniqueIPCount := tables.1.length
           MostActiveIPs := ips
           MostVisitedURLs := urls }
  | _, _ => none

/-- A pair of iteration orders is valid for a run when each is a permutation
of the corresponding frequency table built by the streaming pass (Go maps are
iterated in an unspecified order covering all permutations). -/
def ValidOrders {τ : Type} (regex : String → Option Captures)
    (timeParse : String → τ) (lines : List String)
    (ipOrder urlOrder : List (String × Nat)) : Prop :=
  ipOrder.Perm (consolidate (readLogLines regex timeParse lines)).1 ∧
  urlOrder.Perm (consolidate (readLogLines regex timeParse lines)).2

/-- `Analyze`: open the file (a failed open returns the `ErrOpeningFile`
error and no result), then run the streaming pass and the two rankings. -/
def Analyze {τ : Type} (openFile : String → Option (List String))
    (timeParse : String → τ) (la : logAnalyzer) (filePath : String)
    (ipOrder urlOrder : List (String × Nat)) : AnalyzeOutcome :=
  match openFile filePath with
  | none => .err ErrOpeningFile
  | some lines =>
    match AnalyzeCore timeParse la lines ipOrder urlOrder with
    | none => .fatal
    | some r => .ok r

/-- `LogAnalyzerConfig`: a nil `LineRegex` pointer is `none`. -/
structure LogAnalyzerConfig where
  LineRegex : Option (String → Option Captures)
  MostActiveIPsCount : Int
  MostVisitedURLsCount : Int

/-- `NewLogAnalyzer`: a nil config pointer (modelled as `none`) fails with
`ErrConfigIsRequired`; a config without a pattern fails with
`ErrLineRegexIsRequired`; otherwise the analyzer is built from the config
fields. -/
def NewLogAnalyzer (config : Option LogAnalyzerConfig) :
    Except String logAnalyzer :=
  match config with
  | none => .error ErrConfigIsRequired
  | some cfg =>
    match cfg.LineRegex with
    | none => .error ErrLineRegexIsRequired
    | some r =>
      .ok { lineRegex := r
            mostActiveIPsCount := cfg.MostActiveIPsCount
            mostVisitedURLsCount := cfg.MostVisitedURLsCount }

/-! ### Concrete inputs used by witnesses and counterexamples -/

/-- A capture tuple for a well-formed line: client `ip`, resolved `url`,
status `st`, user agent `ua`. -/
def exCaps (ip url st ua : String) : Captures :=
  ⟨ip, "10/Jul/2018:22:21:28 -0700", "GET", url, "HTTP/1.1", "", st, "3574", "-", ua⟩

/-- A concrete matcher: line `"a"` is a request from 1.1.1.1, line `"b"` one
from 2.2.2.2, both for `/x`; everything else fails to match. -/
def exRegexA : String → Option Captures := fun s =>
  if s = "a" then some (exCaps "1.1.1.1" "/x" "200" "ua1")
  else if s = "b" then some (exCaps "2.2.2.2" "/x" "200" "ua2") else none

/-- A variant of `exRegexA` with different status and user-agent fields but
the same client addresses and URLs. -/
def exRegexB : String → Option Captures := fun s =>
  if s = "a" then some (exCaps "1.1.1.1" "/x" "404" "other1")
  else if s = "b" then some (exCaps "2.2.2.2" "/x" "500" "other2") else none

/-! ### Theorems -/

/-! #### Frequency-table lemmas -/

theorem bump_nil (k : String) : bump [] k = [(k, 1)] := rfl

theorem bump_cons_ne (a : String × Nat) (m : List (String × Nat)) (k : String)
    (h : a.1 ≠ k) : bump (a :: m) k = a :: bump m k := by
  unfold bump
  rw [List.find?_cons_of_neg _ (by simp [h])]
  cases m.find? (fun p => decide (p.1 = k)) with
  | none => simp
  | some p => simp [h]

theorem bump_cons_eq (a : String × Nat) (m : List (String × Nat)) (k : String)
    (h : a.1 = k) (h2 : ∀ q ∈ m, q.1 ≠ k) :
    bump (a :: m) k = (a.1, a.2 + 1) :: m := by
  unfold bump
  rw [List.find?_cons_of_pos _ (by simp [h])]
  simp only [List.map_cons, if_pos h]
  congr 1
  have : m.map (fun q => if q.1 = k then (q.1, a.2 + 1) else q) = m.map id := by
    exact List.map_congr_left (fun q hq => by simp [h2 q hq])
  simpa using this

theorem bump_map_fst (m : List (String × Nat)) (k : String) :
    (bump m k).map Prod.fst =
      if k ∈ m.map Prod.fst then m.map Prod.fst else m.map Prod.fst ++ [k] := by
  unfold bump
  cases hf : m.find? (fun p => decide (p.1 = k)) with
  | none =>
    have hk : k ∉ m.map Prod.fst := by
      rw [List.find?_eq_none] at hf
      simp only [List.mem_map, not_exists]
      rintro p ⟨hp, hpk⟩
      have hne := hf p hp
      simp only [decide_eq_true_eq] at hne
      exact hne hpk
    simp [hk]
  | some p =>
    have hk : k ∈ m.map Prod.fst := by
      have hmem := List.mem_of_find?_eq_some hf
      have hpk : p.1 = k := by simpa using List.find?_some hf
      exact hpk ▸ List.mem_map_of_mem Prod.fst hmem
    rw [if_pos hk, List.map_map]
    apply List.map_congr_left
    intro q _
    by_cases h : q.1 = k <;> simp [h]

theorem bump_fst_nodup (m : List (String × Nat)) (k : String)
    (h : (m.map Prod.fst).Nodup) : ((bump m k).map Prod.fst).Nodup := by
  rw [bump_map_fst]
  by_cases hk : k ∈ m.map Prod.fst
  · simpa [hk]
  · simpa [hk, List.nodup_append] using h

theorem bump_fst_toFinset (m : List (String × Nat)) (k : String) :
    ((bump m k).map Prod.fst).toFinset = insert k (m.map Prod.fst).toFinset := by
  rw [bump_map_fst]
  by_cases hk : k ∈ m.map Prod.fst
  · rw [if_pos hk]
    exact (Finset.insert_eq_self.mpr (List.mem_toFinset.mpr hk)).symm
  · rw [if_neg hk, List.toFinset_append]
    ext x
    simp [or_comm]

theorem bump_pos (m : List (String × Nat)) (k : String)
    (h : ∀ q ∈ m, 1 ≤ q.2) : ∀ q ∈ bump m k, 1 ≤ q.2 := by
  unfold bump
  cases hf : m.find? (fun p => decide (p.1 = k)) with
  | none =>
    intro q hq
    rcases List.mem_append.mp hq with hq | hq
    · exact h q hq
    · simp only [List.mem_singleton] at hq
      simp [hq]
  | some p =>
    intro q hq
    rcases List.mem_map.mp hq with ⟨q', hq', rfl⟩
    by_cases hk : q'.1 = k
    · simp [hk]
    · simpa [hk] using h q' hq'

theorem bump_snd_sum : ∀ (m : List (String × Nat)) (k : String),
    (m.map Prod.fst).Nodup →
    ((bump m k).map Prod.snd).sum = (m.map Prod.snd).sum + 1 := by
  intro m k
  induction m with
  | nil => intro _; rfl
  | cons a m ih =>
    intro hN
    simp only [List.map_cons, List.nodup_cons] at hN
    by_cases h : a.1 = k
    · rw [bump_cons_eq a m k h ?_]
      · simp only [List.map_cons, List.sum_cons]
        omega
      · intro q hq hqk
        exact hN.1 ((h.trans hqk.symm) ▸ List.mem_map_of_mem Prod.fst hq)
    · rw [bump_cons_ne a m k h]
      simp only [List.map_cons, List.sum_cons, ih hN.2]
      omega

theorem foldl_bump_spec : ∀ (ks : List String) (m : List (String × Nat)),
    (m.map Prod.fst).Nodup → (∀ q ∈ m, 1 ≤ q.2) →
    ((ks.foldl bump m).map Prod.fst).Nodup ∧
    (∀ q ∈ ks.foldl bump m, 1 ≤ q.2) ∧
    ((ks.foldl bump m).map Prod.snd).sum = (m.map Prod.snd).sum + ks.length ∧
    ((ks.foldl bump m).map Prod.fst).toFinset =
      (m.map Prod.fst).toFinset ∪ ks.toFinset := by
  intro ks
  induction ks with
  | nil =>
    intro m h1 h2
    exact ⟨h1, h2, by simp, by simp⟩
  | cons k ks ih =>
    intro m h1 h2
    simp only [List.foldl_cons]
    obtain ⟨a, b, c, d⟩ := ih (bump m k) (bump_fst_nodup m k h1) (bump_pos m k h2)
    refine ⟨a, b, ?_, ?_⟩
    · rw [c, bump_snd_sum m k h1]
      simp only [List.length_cons]
      omega
    · rw [d, bump_fst_toFinset, List.toFinset_cons]
      ext x
      simp

theorem consolidate_loop {τ : Type} :
    ∀ (recs : List (Line τ)) (m₁ m₂ : List (String × Nat)),
    recs.foldl (fun acc l => (bump acc.1 l.RemoteHost, bump acc.2 l.URL)) (m₁, m₂) =
      ((recs.map Line.RemoteHost).foldl bump m₁,
       (recs.map Line.URL).foldl bump m₂) := by
  intro recs
  induction recs with
  | nil => intro m₁ m₂; rfl
  | cons l recs ih => intro m₁ m₂; simp [List.foldl_cons, ih]

theorem consolidate_eq {τ : Type} (recs : List (Line τ)) :
    consolidate recs = ((recs.map Line.RemoteHost).foldl bump [],
                        (recs.map Line.URL).foldl bump []) :=
  consolidate_loop recs [] []

/-- C8: after the streaming pass, the counts of the client-address table and
of the URL table each total exactly the number of decoded records (so the
two totals agree), and every stored count is at least one. -/
theorem consolidate_totals {τ : Type} (recs : List (Line τ)) :
    ((consolidate recs).1.map Prod.snd).sum = recs.length ∧
    ((consolidate recs).2.map Prod.snd).sum = recs.length ∧
    ((consolidate recs).1.map Prod.snd).sum =
      ((consolidate recs).2.map Prod.snd).sum ∧
    (∀ q ∈ (consolidate recs).1, 1 ≤ q.2) ∧
    (∀ q ∈ (consolidate recs).2, 1 ≤ q.2) := by
  rw [consolidate_eq]
  obtain ⟨-, b₁, c₁, -⟩ :=
    foldl_bump_spec (recs.map Line.RemoteHost) [] (by simp) (by simp)
  obtain ⟨-, b₂, c₂, -⟩ :=
    foldl_bump_spec (recs.map Line.URL) [] (by simp) (by simp)
  simp only [List.map_nil, List.sum_nil, Nat.zero_add, List.length_map] at c₁ c₂
  exact ⟨c₁, c₂, c₁.trans c₂.symm, b₁, b₂⟩

/-! #### Sorting lemmas -/

theorem statSort_length (stats : List (String × Nat)) :
    (statSort stats).length = stats.length := by
  unfold statSort
  exact List.length_mergeSort stats

theorem statSort_perm (stats : List (String × Nat)) :
    (statSort stats).Perm stats := by
  unfold statSort
  exact List.mergeSort_perm stats _

theorem statSort_pairwise (stats : List (String × Nat)) :
    (statSort stats).Pairwise (fun a b => b.2 ≤ a.2) := by
  have h : (statSort stats).Pairwise
      (fun a b : String × Nat => decide (b.2 ≤ a.2) = true) := by
    unfold statSort
    exact List.sorted_mergeSort
      (fun a b c hab hbc => by
        simp only [decide_eq_true_eq] at hab hbc ⊢
        omega)
      (fun a b => by rcases Nat.le_total b.2 a.2 with h | h <;> simp [h])
      stats
  exact h.imp (fun h => by simpa using h)

theorem topMost_eq_take (metrics : List (String × Nat)) (top : Int)
    (h : top ≤ (metrics.length : Int)) :
    topMost metrics top =
      some (((statSort metrics).take top.toNat).map Prod.fst) := by
  unfold topMost
  rw [if_neg (by rw [statSort_length]; exact not_lt.mpr h)]

/-- C5: `NewLogAnalyzer` called with an absent configuration fails with the
configuration-required error; with a configuration lacking a pattern it
fails with the distinct pattern-required error; with any configuration
carrying a pattern it succeeds, whatever ranking counts are supplied
(including zero). -/
theorem newLogAnalyzer_construction :
    NewLogAnalyzer none = .error ErrConfigIsRequired ∧
    (∀ (nI nU : Int),
      NewLogAnalyzer (some ⟨none, nI, nU⟩) = .error ErrLineRegexIsRequired) ∧
    (∀ (r : String → Option Captures) (nI nU : Int),
      NewLogAnalyzer (some ⟨some r, nI, nU⟩) = .ok ⟨r, nI, nU⟩) :=
  ⟨rfl, fun _ _ => rfl, fun _ _ _ => rfl⟩

/-- C6: when the open of the source fails, `Analyze` returns the distinct
`ErrOpeningFile` error and no result object is produced. -/
theorem analyze_open_failure {τ : Type} (openFile : String → Option (List String))
    (timeParse : String → τ) (la : logAnalyzer) (filePath : String)
    (ipOrder urlOrder : List (String × Nat))
    (h : openFile filePath = none) :
    Analyze openFile timeParse la filePath ipOrder urlOrder =
      .err ErrOpeningFile ∧
    ∀ r, Analyze openFile timeParse la filePath ipOrder urlOrder ≠ .ok r := by
  refine ⟨?_, ?_⟩
  · simp [Analyze, h]
  · intro r
    simp [Analyze, h]

/-- Witness for C6: a concrete run whose open fails. -/
theorem analyze_open_failure_witness :
    Analyze (fun _ => none) (fun s => s) ⟨fun _ => none, 3, 3⟩ "no-such.log" [] [] =
      .err ErrOpeningFile ∧
    ∀ r, Analyze (fun _ => none) (fun s => s) ⟨fun _ => none, 3, 3⟩ "no-such.log" [] []
      ≠ .ok r :=
  analyze_open_failure _ _ _ _ _ _ rfl

/-- C7: the resolved URL of a decoded line is the alternate capture exactly
when the primary capture is empty and the alternate is not; in every other
case it is the primary capture, and when both captures are empty it is the
empty string. -/
theorem decodeLine_url_resolution {τ : Type} (timeParse : String → τ)
    (caps : Captures) :
    (caps.g4 = "" → caps.g6 ≠ "" → (decodeLine timeParse caps).URL = caps.g6) ∧
    ((caps.g4 ≠ "" ∨ caps.g6 = "") → (decodeLine timeParse caps).URL = caps.g4) ∧
    (caps.g4 = "" → caps.g6 = "" → (decodeLine timeParse caps).URL = "") := by
  unfold decodeLine
  refine ⟨fun h4 h6 => ?_, fun h => ?_, fun h4 h6 => ?_⟩
  · simp [h4, h6]
  · rcases h with h | h
    · simp [h]
    · by_cases h4 : caps.g4 = "" <;> simp [h4, h]
  · simp [h4, h6]

/-- Witness for C7: the three cases of URL resolution at concrete captures. -/
theorem decodeLine_url_resolution_witness :
    (decodeLine (fun _ => ()) ⟨"ip", "d", "GET", "", "p", "/alt", "200", "10", "-", "ua"⟩).URL
        = "/alt" ∧
    (decodeLine (fun _ => ()) ⟨"ip", "d", "GET", "/u", "p", "/alt", "200", "10", "-", "ua"⟩).URL
        = "/u" ∧
    (decodeLine (fun _ => ()) ⟨"ip", "d", "GET", "", "p", "", "200", "10", "-", "ua"⟩).URL
        = "" :=
  ⟨(decodeLine_url_resolution _ _).1 rfl (by decide),
   (decodeLine_url_resolution _ _).2.1 (Or.inl (by decide)),
   (decodeLine_url_resolution _ _).2.2 rfl rfl⟩

/-- C1: when the requested top-N count strictly exceeds the number of
distinct keys of the table (the length of any iteration order of it), the
ranking hits the out-of-bounds index: `topMost` has no defined value and the
whole `Analyze` run is fatal rather than returning a truncated list. -/
theorem topMost_out_of_range {τ : Type} (openFile : String → Option (List String))
    (timeParse : String → τ) (la : logAnalyzer) (filePath : String)
    (lines : List String) (ipOrder urlOrder : List (String × Nat))
    (hopen : openFile filePath = some lines)
    (horders : ValidOrders la.lineRegex timeParse lines ipOrder urlOrder)
    (htop : (ipOrder.length : Int) < la.mostActiveIPsCount) :
    topMost ipOrder la.mostActiveIPsCount = none ∧
    Analyze openFile timeParse la filePath ipOrder urlOrder = .fatal := by
  have hnone : topMost ipOrder la.mostActiveIPsCount = none := by
    unfold topMost statSort
    simp only [List.length_mergeSort]
    simp [htop]
  refine ⟨hnone, ?_⟩
  simp [Analyze, hopen, AnalyzeCore, hnone]

/-- Witness for C1: a run over an empty table with a requested top count of
one panics. -/
theorem topMost_out_of_range_witness :
    topMost [] 1 = none ∧
    Analyze (fun _ => some ["junk"]) (fun _ : String => ())
      ⟨fun _ => none, 1, 0⟩ "access.log" [] [] = .fatal :=
  topMost_out_of_range (fun _ => some ["junk"]) (fun _ => ())
    ⟨fun _ => none, 1, 0⟩ "access.log" ["junk"] [] [] rfl
    ⟨List.Perm.refl _, List.Perm.refl _⟩ (by decide)

/-- C2: for every table and every requested count N with 0 ≤ N ≤ number of
distinct keys, the ranking returns a list of length exactly N; the sorted
entries split into the N listed ones followed by the unlisted ones, the
whole arrangement is ordered by non-increasing count (so every listed
count is at least every later listed count and at least every unlisted
count) and is a permutation of the table; for N = 0 the list is empty and
no error occurs. -/
theorem topMost_in_range (metrics : List (String × Nat)) (top : Int)
    (h0 : 0 ≤ top) (h1 : top ≤ (metrics.length : Int)) :
    ∃ picked rest : List (String × Nat),
      topMost metrics top = some (picked.map Prod.fst) ∧
      (picked.length : Int) = top ∧
      statSort metrics = picked ++ rest ∧
      (picked ++ rest).Pairwise (fun a b => b.2 ≤ a.2) ∧
      (picked ++ rest).Perm metrics := by
  refine ⟨(statSort metrics).take top.toNat, (statSort metrics).drop top.toNat,
    topMost_eq_take metrics top h1, ?_, (List.take_append_drop _ _).symm, ?_, ?_⟩
  · rw [List.length_take]
    have hlen := statSort_length metrics
    omega
  · rw [List.take_append_drop]
    exact statSort_pairwise metrics
  · rw [List.take_append_drop]
    exact statSort_perm metrics

/-- Witness for C2 at the concrete table [(a,2),(b,1)] with N = 1. -/
theorem topMost_in_range_witness :
    ∃ picked rest : List (String × Nat),
      topMost [("a", 2), ("b", 1)] 1 = some (picked.map Prod.fst) ∧
      (picked.length : Int) = 1 ∧
      statSort [("a", 2), ("b", 1)] = picked ++ rest ∧
      (picked ++ rest).Pairwise (fun a b => b.2 ≤ a.2) ∧
      (picked ++ rest).Perm [("a", 2), ("b", 1)] :=
  topMost_in_range [("a", 2), ("b", 1)] 1 (by decide) (by decide)

/-- C9: for every table with pairwise-distinct keys and every requested
count not exceeding the number of keys, the ranking succeeds, everything it
lists is a key of the table, and no key is listed twice. -/
theorem topMost_keys_nodup (metrics : List (String × Nat)) (top : Int)
    (hN : (metrics.map Prod.fst).Nodup) (h1 : top ≤ (metrics.length : Int)) :
    ∃ l, topMost metrics top = some l ∧
      (∀ s ∈ l, s ∈ metrics.map Prod.fst) ∧ l.Nodup := by
  refine ⟨_, topMost_eq_take metrics top h1, ?_, ?_⟩
  · intro s hs
    rcases List.mem_map.mp hs with ⟨p, hp, rfl⟩
    have hmem : p ∈ statSort metrics := List.mem_of_mem_take hp
    exact List.mem_map_of_mem _ ((statSort_perm metrics).mem_iff.mp hmem)
  · have hsub : List.Sublist (((statSort metrics).take top.toNat).map Prod.fst)
        ((statSort metrics).map Prod.fst) := (List.take_sublist _ _).map _
    have hnd : ((statSort metrics).map Prod.fst).Nodup :=
      (((statSort_perm metrics).map Prod.fst).nodup_iff).mpr hN
    exact hnd.sublist hsub

/-- Witness for C9 at the concrete table [(a,2),(b,1)] with N = 2. -/
theorem topMost_keys_nodup_witness :
    ∃ l, topMost [("a", 2), ("b", 1)] 2 = some l ∧
      (∀ s ∈ l, s ∈ ([("a", 2), ("b", 1)] : List (String × Nat)).map Prod.fst) ∧
      l.Nodup :=
  topMost_keys_nodup [("a", 2), ("b", 1)] 2 (by decide) (by decide)

/-- C4: on a successful run the unique-IP count of the result equals the
number of distinct client addresses among exactly the matched lines; a line
the pattern does not match is skipped by the decoding pass (so it reaches
no frequency table), and an input containing such a line analyzes exactly
like the same input without it. -/
theorem analyze_unique_ip_count {τ : Type}
    (openFile : String → Option (List String)) (timeParse : String → τ)
    (la : logAnalyzer) (filePath : String) (lines : List String)
    (ipOrder urlOrder : List (String × Nat))
    (hopen : openFile filePath = some lines)
    (horders : ValidOrders la.lineRegex timeParse lines ipOrder urlOrder)
    (hi : la.mostActiveIPsCount ≤ (ipOrder.length : Int))
    (hu : la.mostVisitedURLsCount ≤ (urlOrder.length : Int)) :
    (∃ r : LogAnalytics,
      Analyze openFile timeParse la filePath ipOrder urlOrder = .ok r ∧
      r.UniqueIPCount =
        ((readLogLines la.lineRegex timeParse lines).map
          Line.RemoteHost).toFinset.card) ∧
    (∀ pre post bad, la.lineRegex bad = none →
      readLogLines la.lineRegex timeParse (pre ++ bad :: post) =
        readLogLines la.lineRegex timeParse (pre ++ post)) ∧
    (∀ (openFile₂ : String → Option (List String)) (filePath₂ : String)
        (pre post : List String) (bad : String),
      la.lineRegex bad = none →
      openFile₂ filePath₂ = some (pre ++ bad :: post) →
      ∀ (openFile₃ : String → Option (List String)) (filePath₃ : String),
        openFile₃ filePath₃ = some (pre ++ post) →
        Analyze openFile₂ timeParse la filePath₂ ipOrder urlOrder =
          Analyze openFile₃ timeParse la filePath₃ ipOrder urlOrder) := by
  have hskip : ∀ pre post bad, la.lineRegex bad = none →
      readLogLines la.lineRegex timeParse (pre ++ bad :: post) =
        readLogLines la.lineRegex timeParse (pre ++ post) := by
    intro pre post bad hbad
    simp [readLogLines, hbad]
  refine ⟨?_, hskip, ?_⟩
  · have hip := topMost_eq_take ipOrder la.mostActiveIPsCount hi
    have hurl := topMost_eq_take urlOrder la.mostVisitedURLsCount hu
    refine ⟨⟨(consolidate (readLogLines la.lineRegex timeParse lines)).1.length,
        ((statSort ipOrder).take la.mostActiveIPsCount.toNat).map Prod.fst,
        ((statSort urlOrder).take la.mostVisitedURLsCount.toNat).map Prod.fst⟩,
      by simp [Analyze, hopen, AnalyzeCore, hip, hurl], ?_⟩
    obtain ⟨hnd, -, -, hset⟩ :=
      foldl_bump_spec ((readLogLines la.lineRegex timeParse lines).map
        Line.RemoteHost) [] (by simp) (by simp)
    show (consolidate (readLogLines la.lineRegex timeParse lines)).1.length = _
    rw [consolidate_eq]
    calc (((readLogLines la.lineRegex timeParse lines).map
            Line.RemoteHost).foldl bump []).length
        = ((((readLogLines la.lineRegex timeParse lines).map
            Line.RemoteHost).foldl bump []).map Prod.fst).length := by
          rw [List.length_map]
      _ = ((((readLogLines la.lineRegex timeParse lines).map
            Line.RemoteHost).foldl bump []).map Prod.fst).toFinset.card :=
          (List.toFinset_card_of_nodup hnd).symm
      _ = ((readLogLines la.lineRegex timeParse lines).map
            Line.RemoteHost).toFinset.card := by
          rw [hset]
          simp
  · intro openFile₂ filePath₂ pre post bad hbad h₂ openFile₃ filePath₃ h₃
    simp only [Analyze, h₂, h₃, AnalyzeCore]
    rw [hskip pre post bad hbad]

/-- Witness for C4: a four-line input whose second line is unmatched; the
two distinct addresses are counted. -/
theorem analyze_unique_ip_count_witness :
    (∃ r : LogAnalytics,
      Analyze (fun _ => some ["a", "junk", "b", "a"]) (fun _ : String => ())
          ⟨exRegexA, 1, 1⟩ "access.log"
          [("1.1.1.1", 2), ("2.2.2.2", 1)] [("/x", 3)] = .ok r ∧
      r.UniqueIPCount =
        ((readLogLines exRegexA (fun _ : String => ())
            ["a", "junk", "b", "a"]).map Line.RemoteHost).toFinset.card) ∧
    (∀ pre post bad, exRegexA bad = none →
      readLogLines exRegexA (fun _ : String => ()) (pre ++ bad :: post) =
        readLogLines exRegexA (fun _ : String => ()) (pre ++ post)) ∧
    (∀ (openFile₂ : String → Option (List String)) (filePath₂ : String)
        (pre post : List String) (bad : String),
      exRegexA bad = none →
      openFile₂ filePath₂ = some (pre ++ bad :: post) →
      ∀ (openFile₃ : String → Option (List String)) (filePath₃ : String),
        openFile₃ filePath₃ = some (pre ++ post) →
        Analyze openFile₂ (fun _ : String => ()) ⟨exRegexA, 1, 1⟩ filePath₂
            [("1.1.1.1", 2), ("2.2.2.2", 1)] [("/x", 3)] =
          Analyze openFile₃ (fun _ : String => ()) ⟨exRegexA, 1, 1⟩ filePath₃
            [("1.1.1.1", 2), ("2.2.2.2", 1)] [("/x", 3)]) :=
  analyze_unique_ip_count _ _ ⟨exRegexA, 1, 1⟩ "access.log" _ _ _ rfl
    ⟨List.Perm.refl _, List.Perm.refl _⟩ (by decide) (by decide)

/-! #### Determinism of the ranking -/

theorem statSort_eq_of_perm_of_snd_nodup (o₁ o₂ : List (String × Nat))
    (hperm : o₁.Perm o₂) (hsnd : (o₁.map Prod.snd).Nodup) :
    statSort o₁ = statSort o₂ := by
  have hp : (statSort o₁).Perm (statSort o₂) :=
    (statSort_perm o₁).trans (hperm.trans (statSort_perm o₂).symm)
  have hsnd₁ : ((statSort o₁).map Prod.snd).Nodup :=
    (((statSort_perm o₁).map Prod.snd).nodup_iff).mpr hsnd
  have hsnd₂ : ((statSort o₂).map Prod.snd).Nodup :=
    ((hp.map Prod.snd).nodup_iff).mp hsnd₁
  have hstrict : ∀ (l : List (String × Nat)),
      l.Pairwise (fun a b => b.2 ≤ a.2) → (l.map Prod.snd).Nodup →
      l.Pairwise (fun a b => b.2 < a.2) := by
    intro l hle hnd
    have hnd' : (l.map Prod.snd).Pairwise (fun a b => a ≠ b) := hnd
    have hne : l.Pairwise (fun a b => a.2 ≠ b.2) := List.pairwise_map.mp hnd'
    exact (hle.and hne).imp (fun h => lt_of_le_of_ne h.1 (Ne.symm h.2))
  haveI : IsAntisymm (String × Nat) (fun a b => b.2 < a.2) :=
    ⟨fun a b h₁ h₂ => absurd h₂ (not_lt.mpr (le_of_lt h₁))⟩
  exact List.eq_of_perm_of_sorted hp
    (hstrict _ (statSort_pairwise o₁) hsnd₁)
    (hstrict _ (statSort_pairwise o₂) hsnd₂)

/-- C3 counterexample: one fixed two-line input, two valid iteration orders
of its client-address table (both keys tie at one hit), two different
results: `Analyze` on an unmodified input is not deterministic when counts
tie, because a Go map is iterated in an unspecified (randomised) order. -/
theorem analyze_tie_nondeterminism :
    ValidOrders exRegexA (fun _ : String => ()) ["a", "b"]
      [("1.1.1.1", 1), ("2.2.2.2", 1)] [("/x", 2)] ∧
    ValidOrders exRegexA (fun _ : String => ()) ["a", "b"]
      [("2.2.2.2", 1), ("1.1.1.1", 1)] [("/x", 2)] ∧
    Analyze (fun _ => some ["a", "b"]) (fun _ : String => ()) ⟨exRegexA, 1, 0⟩
        "access.log" [("1.1.1.1", 1), ("2.2.2.2", 1)] [("/x", 2)] ≠
      Analyze (fun _ => some ["a", "b"]) (fun _ : String => ()) ⟨exRegexA, 1, 0⟩
        "access.log" [("2.2.2.2", 1), ("1.1.1.1", 1)] [("/x", 2)] := by
  refine ⟨⟨List.Perm.refl _, List.Perm.refl _⟩,
    ⟨List.Perm.swap ("1.1.1.1", 1) ("2.2.2.2", 1) [], List.Perm.refl _⟩, ?_⟩
  have hs₁ : statSort [("1.1.1.1", 1), ("2.2.2.2", 1)] =
      [("1.1.1.1", 1), ("2.2.2.2", 1)] := by
    unfold statSort
    exact List.mergeSort_of_sorted (by decide)
  have hs₂ : statSort [("2.2.2.2", 1), ("1.1.1.1", 1)] =
      [("2.2.2.2", 1), ("1.1.1.1", 1)] := by
    unfold statSort
    exact List.mergeSort_of_sorted (by decide)
  have hu : statSort [("/x", 2)] = [("/x", 2)] := by
    unfold statSort
    exact List.mergeSort_of_sorted (by decide)
  have t₁ : topMost [("1.1.1.1", 1), ("2.2.2.2", 1)] 1 = some ["1.1.1.1"] := by
    rw [topMost_eq_take _ _ (by decide), hs₁]
    rfl
  have t₂ : topMost [("2.2.2.2", 1), ("1.1.1.1", 1)] 1 = some ["2.2.2.2"] := by
    rw [topMost_eq_take _ _ (by decide), hs₂]
    rfl
  have tu : topMost [("/x", 2)] 0 = some [] := by
    rw [topMost_eq_take _ _ (by decide), hu]
    rfl
  simp only [Analyze, AnalyzeCore, t₁, t₂, tu]
  simp

theorem topMost_eq_none_iff (metrics : List (String × Nat)) (top : Int) :
    topMost metrics top = none ↔ (metrics.length : Int) < top := by
  simp only [topMost, statSort_length]
  by_cases h : (metrics.length : Int) < top <;> simp [h]

theorem analyzeCore_eq_none_iff {τ : Type} (timeParse : String → τ)
    (la : logAnalyzer) (lines : List String)
    (ipOrder urlOrder : List (String × Nat)) :
    AnalyzeCore timeParse la lines ipOrder urlOrder = none ↔
      (topMost ipOrder la.mostActiveIPsCount = none ∨
       topMost urlOrder la.mostVisitedURLsCount = none) := by
  simp only [AnalyzeCore]
  cases h1 : topMost ipOrder la.mostActiveIPsCount <;>
    cases h2 : topMost urlOrder la.mostVisitedURLsCount <;> simp

theorem analyzeCore_ok_uniqueIPCount {τ : Type} (timeParse : String → τ)
    (la : logAnalyzer) (lines : List String)
    (ipOrder urlOrder : List (String × Nat)) (r : LogAnalytics)
    (h : AnalyzeCore timeParse la lines ipOrder urlOrder = some r) :
    r.UniqueIPCount =
      (consolidate (readLogLines la.lineRegex timeParse lines)).1.length := by
  simp only [AnalyzeCore] at h
  cases h₁ : topMost ipOrder la.mostActiveIPsCount with
  | none => rw [h₁] at h; simp at h
  | some ips =>
    cases h₂ : topMost urlOrder la.mostVisitedURLsCount with
    | none => rw [h₁, h₂] at h; simp at h
    | some urls =>
      rw [h₁, h₂] at h
      simp only [Option.some.injEq] at h
      rw [← h]

/-- C3 amended: on a fixed unmodified input, any two runs (any two valid
map-iteration orders) agree on whether the run is fatal and, when both
return a result, on the unique-IP count — ties included; the whole result,
both ranked lists included, is moreover the same across runs whenever the
occurrence counts in each frequency table are pairwise distinct.  Only the
relative order of tied keys can differ between runs. -/
theorem analyze_deterministic_of_distinct_counts {τ : Type}
    (openFile : String → Option (List String)) (timeParse : String → τ)
    (la : logAnalyzer) (filePath : String) (lines : List String)
    (ipOrder₁ urlOrder₁ ipOrder₂ urlOrder₂ : List (String × Nat))
    (hopen : openFile filePath = some lines)
    (h₁ : ValidOrders la.lineRegex timeParse lines ipOrder₁ urlOrder₁)
    (h₂ : ValidOrders la.lineRegex timeParse lines ipOrder₂ urlOrder₂) :
    (∀ r₁ r₂ : LogAnalytics,
      Analyze openFile timeParse la filePath ipOrder₁ urlOrder₁ = .ok r₁ →
      Analyze openFile timeParse la filePath ipOrder₂ urlOrder₂ = .ok r₂ →
      r₁.UniqueIPCount = r₂.UniqueIPCount) ∧
    (Analyze openFile timeParse la filePath ipOrder₁ urlOrder₁ = .fatal ↔
      Analyze openFile timeParse la filePath ipOrder₂ urlOrder₂ = .fatal) ∧
    (((consolidate (readLogLines la.lineRegex timeParse lines)).1.map
        Prod.snd).Nodup →
     ((consolidate (readLogLines la.lineRegex timeParse lines)).2.map
        Prod.snd).Nodup →
      Analyze openFile timeParse la filePath ipOrder₁ urlOrder₁ =
        Analyze openFile timeParse la filePath ipOrder₂ urlOrder₂) := by
  obtain ⟨hi₁, hu₁⟩ := h₁
  obtain ⟨hi₂, hu₂⟩ := h₂
  have hipl : ipOrder₁.length = ipOrder₂.length :=
    hi₁.length_eq.trans hi₂.length_eq.symm
  have hurll : urlOrder₁.length = urlOrder₂.length :=
    hu₁.length_eq.trans hu₂.length_eq.symm
  have hcnone : (AnalyzeCore timeParse la lines ipOrder₁ urlOrder₁ = none) ↔
      (AnalyzeCore timeParse la lines ipOrder₂ urlOrder₂ = none) := by
    rw [analyzeCore_eq_none_iff, analyzeCore_eq_none_iff,
        topMost_eq_none_iff, topMost_eq_none_iff, topMost_eq_none_iff,
        topMost_eq_none_iff, hipl, hurll]
  refine ⟨?_, ?_, ?_⟩
  · intro r₁ r₂ e₁ e₂
    simp only [Analyze, hopen] at e₁ e₂
    cases hc₁ : AnalyzeCore timeParse la lines ipOrder₁ urlOrder₁ with
    | none => rw [hc₁] at e₁; simp at e₁
    | some s₁ =>
      cases hc₂ : AnalyzeCore timeParse la lines ipOrder₂ urlOrder₂ with
      | none => rw [hc₂] at e₂; simp at e₂
      | some s₂ =>
        rw [hc₁] at e₁
        rw [hc₂] at e₂
        simp only [AnalyzeOutcome.ok.injEq] at e₁ e₂
        rw [← e₁, ← e₂,
          analyzeCore_ok_uniqueIPCount timeParse la lines ipOrder₁ urlOrder₁ s₁ hc₁,
          analyzeCore_ok_uniqueIPCount timeParse la lines ipOrder₂ urlOrder₂ s₂ hc₂]
  · simp only [Analyze, hopen]
    cases hc₁ : AnalyzeCore timeParse la lines ipOrder₁ urlOrder₁ with
    | none =>
      rw [hcnone.mp hc₁]
    | some s₁ =>
      cases hc₂ : AnalyzeCore timeParse la lines ipOrder₂ urlOrder₂ with
      | none =>
        have hx := hcnone.mpr hc₂
        rw [hc₁] at hx
        simp at hx
      | some s₂ => simp
  · intro hipc hurlc
    have hipp : ipOrder₁.Perm ipOrder₂ := hi₁.trans hi₂.symm
    have hupp : urlOrder₁.Perm urlOrder₂ := hu₁.trans hu₂.symm
    have hipnd : (ipOrder₁.map Prod.snd).Nodup :=
      ((hi₁.map Prod.snd).nodup_iff).mpr hipc
    have hurlnd : (urlOrder₁.map Prod.snd).Nodup :=
      ((hu₁.map Prod.snd).nodup_iff).mpr hurlc
    have hssip := statSort_eq_of_perm_of_snd_nodup _ _ hipp hipnd
    have hssurl := statSort_eq_of_perm_of_snd_nodup _ _ hupp hurlnd
    simp only [Analyze, hopen, AnalyzeCore, topMost, hssip, hssurl]

/-- Witness for C3-amended: a three-line input with distinct counts (2 and
1) under two different iteration orders: returned results agree on the
unique-IP count, fatality agrees, and the whole results coincide. -/
theorem analyze_deterministic_witness :
    (∀ r₁ r₂ : LogAnalytics,
      Analyze (fun _ => some ["a", "a", "b"]) (fun _ : String => ())
          ⟨exRegexA, 1, 1⟩ "access.log"
          [("1.1.1.1", 2), ("2.2.2.2", 1)] [("/x", 3)] = .ok r₁ →
      Analyze (fun _ => some ["a", "a", "b"]) (fun _ : String => ())
          ⟨exRegexA, 1, 1⟩ "access.log"
          [("2.2.2.2", 1), ("1.1.1.1", 2)] [("/x", 3)] = .ok r₂ →
      r₁.UniqueIPCount = r₂.UniqueIPCount) ∧
    (Analyze (fun _ => some ["a", "a", "b"]) (fun _ : String => ())
        ⟨exRegexA, 1, 1⟩ "access.log"
        [("1.1.1.1", 2), ("2.2.2.2", 1)] [("/x", 3)] = .fatal ↔
      Analyze (fun _ => some ["a", "a", "b"]) (fun _ : String => ())
        ⟨exRegexA, 1, 1⟩ "access.log"
        [("2.2.2.2", 1), ("1.1.1.1", 2)] [("/x", 3)] = .fatal) ∧
    (((consolidate (readLogLines exRegexA (fun _ : String => ())
        ["a", "a", "b"])).1.map Prod.snd).Nodup →
     ((consolidate (readLogLines exRegexA (fun _ : String => ())
        ["a", "a", "b"])).2.map Prod.snd).Nodup →
      Analyze (fun _ => some ["a", "a", "b"]) (fun _ : String => ())
          ⟨exRegexA, 1, 1⟩ "access.log"
          [("1.1.1.1", 2), ("2.2.2.2", 1)] [("/x", 3)] =
        Analyze (fun _ => some ["a", "a", "b"]) (fun _ : String => ())
          ⟨exRegexA, 1, 1⟩ "access.log"
          [("2.2.2.2", 1), ("1.1.1.1", 2)] [("/x", 3)]) :=
  analyze_deterministic_of_distinct_counts _ _ ⟨exRegexA, 1, 1⟩ "access.log" _
    _ _ _ _ rfl ⟨List.Perm.refl _, List.Perm.refl _⟩
    ⟨List.Perm.swap ("1.1.1.1", 2) ("2.2.2.2", 1) [], List.Perm.refl _⟩

/-! #### Dependence on record fields -/

theorem consolidate_proj {τ : Type} (recs : List (Line τ)) :
    consolidate recs =
      (((recs.map (fun l => (l.RemoteHost, l.URL))).map Prod.fst).foldl bump [],
       ((recs.map (fun l => (l.RemoteHost, l.URL))).map Prod.snd).foldl bump []) := by
  have h1 : (recs.map (fun l => (l.RemoteHost, l.URL))).map Prod.fst =
      recs.map Line.RemoteHost := by
    rw [List.map_map]
    rfl
  have h2 : (recs.map (fun l => (l.RemoteHost, l.URL))).map Prod.snd =
      recs.map Line.URL := by
    rw [List.map_map]
    rfl
  rw [consolidate_eq, h1, h2]

/-- C10: the analytics result depends only on the (client address, resolved
URL) projection of the decoded records: two runs whose matched lines give
the same sequence of pairs — however different the timestamp, method,
protocol, status, byte-count, referrer and user-agent fields are — produce
identical outcomes under every common iteration order. -/
theorem analyze_depends_only_on_host_url {τ₁ τ₂ : Type}
    (regex₁ regex₂ : String → Option Captures)
    (tp₁ : String → τ₁) (tp₂ : String → τ₂)
    (lines₁ lines₂ : List String)
    (hproj : (readLogLines regex₁ tp₁ lines₁).map (fun l => (l.RemoteHost, l.URL)) =
      (readLogLines regex₂ tp₂ lines₂).map (fun l => (l.RemoteHost, l.URL)))
    (openFile₁ openFile₂ : String → Option (List String))
    (filePath₁ filePath₂ : String)
    (nI nU : Int) (ipOrder urlOrder : List (String × Nat))
    (h₁ : openFile₁ filePath₁ = some lines₁)
    (h₂ : openFile₂ filePath₂ = some lines₂) :
    Analyze openFile₁ tp₁ ⟨regex₁, nI, nU⟩ filePath₁ ipOrder urlOrder =
      Analyze openFile₂ tp₂ ⟨regex₂, nI, nU⟩ filePath₂ ipOrder urlOrder := by
  have htab : consolidate (readLogLines regex₁ tp₁ lines₁) =
      consolidate (readLogLines regex₂ tp₂ lines₂) := by
    rw [consolidate_proj, consolidate_proj, hproj]
  simp only [Analyze, h₁, h₂, AnalyzeCore, htab]

/-- Witness for C10: the same two lines matched by two patterns that differ
in status and user-agent captures only; the outcomes coincide. -/
theorem analyze_depends_only_on_host_url_witness :
    Analyze (fun _ => some ["a", "b"]) (fun _ : String => ())
        ⟨exRegexA, 1, 1⟩ "one.log"
        [("1.1.1.1", 1), ("2.2.2.2", 1)] [("/x", 2)] =
      Analyze (fun _ => some ["a", "b"]) (fun _ : String => ())
        ⟨exRegexB, 1, 1⟩ "two.log"
        [("1.1.1.1", 1), ("2.2.2.2", 1)] [("/x", 2)] :=
  analyze_depends_only_on_host_url exRegexA exRegexB _ _ ["a", "b"] ["a", "b"]
    (by decide) _ _ "one.log" "two.log" 1 1 _ _ rfl rfl

end HttpLog
